import Mathlib

/-!
# Verification of the macro-indicators pipeline (`main.py`)

Shallow embedding of the FRED fetch/normalize/merge pipeline.

Modelling conventions:
* A calendar date is modelled as a `Nat` ordinal code, ordered as dates are.
  The FRED API emits ISO `YYYY-MM-DD` strings whose lexicographic order agrees
  with calendar order, and `pd.to_datetime` on the merged index is therefore an
  order-preserving identity on the model.
* A pandas `DataFrame` produced by this program is a `DFrame`: an ordered list
  of column labels plus rows of `(date, cells)` where a cell is
  `Option String` (`none` models `NaN`).
* Exceptions escaping a Python function are `Except.error`; `requests`
  failure modes that `get_data` distinguishes are the constructors of
  `ApiResult` (`httpError`, `transportError` and `badJson` all raise
  subclasses of `requests.RequestException`, which `get_data` catches).
-/

/-- Digits consumed from the front of a character list, with the rest. -/
def takeDigits : List Char → Nat × List Char
  | [] => (0, [])
  | c :: t =>
    if c.isDigit then
      let (n, r) := takeDigits t
      (n + 1, r)
    else (0, c :: t)

/-- Drop one optional leading sign character. -/
def dropSign : List Char → List Char
  | '+' :: t => t
  | '-' :: t => t
  | cs => cs

/-- Accept an optional exponent suffix (`e`/`E`, optional sign, digits). -/
def expOk : List Char → Bool
  | [] => true
  | c :: t =>
    (c = 'e' || c = 'E') &&
      (let r := dropSign t
       let (n, r') := takeDigits r
       decide (0 < n) && r'.isEmpty)

/-- Model of `pd.to_numeric(s, errors='coerce').notna()` for a single string
cell: `true` exactly when `s` is a finite decimal numeral (optional sign,
digits with an optional fractional part, optional exponent). FRED's missing
marker `"."` and any other non-numeral yield `NaN` under coercion and so
`false` here. -/
def isNumericStr (s : String) : Bool :=
  let cs := dropSign s.toList
  let (n1, r1) := takeDigits cs
  match r1 with
  | '.' :: t =>
    let (n2, r2) := takeDigits t
    decide (0 < n1 + n2) && expOk r2
  | r => decide (0 < n1) && expOk r

/-- Model of `col.startswith('realtime')` on a column label. -/
def isRealtimeCol (c : String) : Bool :=
  "realtime".toList.isPrefixOf c.toList

/-- One record of the `observations` array of a FRED JSON response: the
`date` field (join key), the `value` field (a string), and the remaining
fields (e.g. `realtime_start`, `realtime_end`) as ordered key/value pairs. -/
structure Obs where
  date : Nat
  value : String
  extra : List (String × String)
deriving DecidableEq, Repr

/-- The parsed JSON body of a response: `observations := none` models a
well-formed JSON object with no `"observations"` key. -/
structure FredBody where
  observations : Option (List Obs)
deriving DecidableEq, Repr

/-- Outcome of `requests.get` + `raise_for_status` + `response.json()` for one
series. The first three constructors raise subclasses of
`requests.RequestException` (HTTP error status, transport failure, malformed
JSON body) and are caught by `get_data`'s `except` clause. -/
inductive ApiResult where
  | httpError
  | transportError
  | badJson
  | ok (body : FredBody)
deriving DecidableEq, Repr

/-- A pandas DataFrame indexed by date: column labels in order, and rows of
`(date, cells)` with cells positionally aligned to the labels. -/
structure DFrame where
  cols : List String
  rows : List (Nat × List (Option String))
deriving DecidableEq, Repr

/-- The index of a frame, in row order. -/
def DFrame.dates (df : DFrame) : List Nat :=
  df.rows.map Prod.fst

/-- `df.empty` in pandas: true when either axis has length zero. -/
def DFrame.isEmpty (df : DFrame) : Bool :=
  df.rows.isEmpty || df.cols.isEmpty

/-- Every row has exactly one cell per column (a well-formed rectangular
frame; pandas frames are rectangular by construction). -/
def DFrame.Rect (df : DFrame) : Prop :=
  ∀ r ∈ df.rows, r.2.length = df.cols.length

instance (df : DFrame) : Decidable df.Rect := by
  unfold DFrame.Rect; infer_instance

/-- Label-based cell access within one row: the cell under the first column
named `c` (pandas label lookup; labels are unique in every frame the program
builds). `none` when no column is named `c`. -/
def rowCell (cols : List String) (cells : List (Option String)) (c : String) :
    Option (Option String) :=
  ((cols.zip cells).find? (fun p => decide (p.1 = c))).map Prod.snd

/-- Keep the entries of `xs` whose mask bit is `true` (positional column
selection, as in `df.loc[:, mask]`). -/
def maskFilter {α : Type} : List Bool → List α → List α
  | b :: bs, x :: xs => if b then x :: maskFilter bs xs else maskFilter bs xs
  | _, _ => []

/-- `df = df.loc[:, ~df.columns.str.startswith('realtime')]`. -/
def DFrame.dropRealtime (df : DFrame) : DFrame :=
  let mask := df.cols.map (fun c => !isRealtimeCol c)
  ⟨maskFilter mask df.cols, df.rows.map (fun r => (r.1, maskFilter mask r.2))⟩

/-- `df = df[pd.to_numeric(df[c], errors='coerce').notna()]`: keep the rows
whose cell under label `c` is a present, numeric string. -/
def DFrame.filterNumeric (df : DFrame) (c : String) : DFrame :=
  ⟨df.cols,
   df.rows.filter (fun r =>
     match rowCell df.cols r.2 c with
     | some (some v) => isNumericStr v
     | _ => false)⟩

/-- The row of `df` with date `d`, if any (first match; indexes are unique in
every frame the merge consumes). -/
def DFrame.lookupRow (df : DFrame) (d : Nat) : Option (List (Option String)) :=
  (df.rows.find? (fun r => decide (r.1 = d))).map Prod.snd

/-- Cells contributed by `df` for date `d` in an outer join: its own row when
the date is present, otherwise one empty cell per column. -/
def DFrame.cellsAt (df : DFrame) (d : Nat) : List (Option String) :=
  match df.lookupRow d with
  | some cells => cells
  | none => df.cols.map (fun _ => none)

/-- `df[sel]`: label-based column selection, in the order of `sel`. -/
def DFrame.selectCols (df : DFrame) (sel : List String) : DFrame :=
  ⟨sel, df.rows.map (fun r => (r.1, sel.map (fun c => (rowCell df.cols r.2 c).getD none)))⟩

/-- Insert a row into a list of rows sorted by ascending date. -/
def insertRow (a : Nat × List (Option String)) :
    List (Nat × List (Option String)) → List (Nat × List (Option String))
  | [] => [a]
  | b :: l => if a.1 ≤ b.1 then a :: b :: l else b :: insertRow a l

/-- Sort rows by ascending date (`merged_df.sort_index()`). -/
def sortRows : List (Nat × List (Option String)) → List (Nat × List (Option String))
  | [] => []
  | a :: l => insertRow a (sortRows l)

/-- Insert into a sorted list of dates. -/
def insertNat (a : Nat) : List Nat → List Nat
  | [] => [a]
  | b :: l => if a ≤ b then a :: b :: l else b :: insertNat a l

/-- Sort a list of dates ascending. -/
def sortNats : List Nat → List Nat
  | [] => []
  | a :: l => insertNat a (sortNats l)

/-- `merged_df.sort_index(inplace=True)`. -/
def DFrame.sortByDate (df : DFrame) : DFrame :=
  ⟨df.cols, sortRows df.rows⟩

/-- The distinct keys of the non-`date`, non-`value` fields across the
observation records, in the order pandas would not expose after the realtime
drop (only membership matters downstream). -/
def extraKeys (obs : List Obs) : List String :=
  (obs.flatMap (fun o => o.extra.map Prod.fst)).dedup

/-- The cell of record `o` under extra key `k` (`none` models the `NaN` that
pandas fills when a record lacks a key). -/
def getCell (o : Obs) (k : String) : Option String :=
  (o.extra.find? (fun p => decide (p.1 = k))).map Prod.snd

/-- `pd.DataFrame(data["observations"]).rename(columns={"value": name}).set_index("date")`:
one row per record, the extra fields as leading columns and the `value` field,
renamed to the series display name, as the last column. -/
def rawSeriesDF (series_name : String) (obs : List Obs) : DFrame :=
  let keys := extraKeys obs
  ⟨keys ++ [series_name],
   obs.map (fun o => (o.date, keys.map (getCell o) ++ [some o.value]))⟩

/-- The empty `pd.DataFrame()` returned on a caught request failure. -/
def emptyDF : DFrame := ⟨[], []⟩

/-- `get_data(series_id, series_name, api_key)` from `main.py`. The three
`RequestException` outcomes are caught and yield an empty frame. On a JSON
body without an `"observations"` key, `data["observations"]` raises a
`KeyError`, which the `except requests.RequestException` clause does not
catch; likewise `set_index("date")` raises a `KeyError` on the columnless
frame built from an empty observations array. -/
def getData (series_name : String) (r : ApiResult) : Except String DFrame :=
  match r with
  | .httpError => .ok emptyDF
  | .transportError => .ok emptyDF
  | .badJson => .ok emptyDF
  | .ok body =>
    match body.observations with
    | none => .error "KeyError: observations"
    | some [] => .error "KeyError: date"
    | some obs =>
      .ok (((rawSeriesDF series_name obs).filterNumeric series_name).dropRealtime)

/-- `pd.concat(dfs, axis=1, join='outer')`: raises
`ValueError: No objects to concatenate` on an empty list; otherwise the index
is the union of the inputs' dates (one row per distinct date; the pre-sort
order is irrelevant because the caller sorts) and each input contributes its
own row's cells, or empty cells where it lacks the date. -/
def concatOuter (dfs : List DFrame) : Except String DFrame :=
  match dfs with
  | [] => .error "ValueError: No objects to concatenate"
  | _ :: _ =>
    .ok ⟨dfs.flatMap DFrame.cols,
         ((dfs.flatMap DFrame.dates).dedup).map
           (fun d => (d, dfs.flatMap (fun df => df.cellsAt d)))⟩

/-- `columns_order = [col for _, col in SERIES_IDS if col in merged_df.columns]`. -/
def columnsOrder (cfg : List (String × String)) (df : DFrame) : List String :=
  (cfg.map Prod.snd).filter (fun c => decide (c ∈ df.cols))

/-- Lines 108–115 of `main.py`: concatenate, convert the index to datetime
(order-preserving identity on the model), drop residual realtime columns,
sort by date, and reorder the columns to the configured order. -/
def mergePipeline (cfg : List (String × String)) (dfs : List DFrame) :
    Except String DFrame :=
  match concatOuter dfs with
  | .error e => .error e
  | .ok merged =>
    let merged := merged.dropRealtime
    let merged := merged.sortByDate
    .ok (merged.selectCols (columnsOrder cfg merged))

/-- One step of the `as_completed` consumer loop: an exception from a future
is caught and logged; a non-empty result frame is appended to `dfs` and its
series name to `successful_series`; an empty frame is skipped. -/
def collectStep (acc : List DFrame × List String)
    (r : String × Except String DFrame) : List DFrame × List String :=
  match r.2 with
  | .ok df => if df.isEmpty then acc else (acc.1 ++ [df], acc.2 ++ [r.1])
  | .error _ => acc

/-- The consumer loop of `main` over the futures' results in completion
order: each element of `results` is a series display name paired with the
outcome of its `future.result()`. -/
def collect (results : List (String × Except String DFrame)) :
    List DFrame × List String :=
  results.foldl collectStep ([], [])

/-- `main`'s data path from completed fetch results to the merged frame. -/
def runPipeline (cfg : List (String × String))
    (results : List (String × Except String DFrame)) : Except String DFrame :=
  mergePipeline cfg (collect results).1

/-- One CSV cell: `NaN` is written as the empty string. -/
def csvCell : Option String → String
  | none => ""
  | some s => s

/-- `df.to_csv(path)`: the `date` index as leading column, then the data
columns; one line per row. -/
def csvOfDF (df : DFrame) : String :=
  String.intercalate "," ("date" :: df.cols) ++ "\n" ++
    String.join (df.rows.map (fun r =>
      String.intercalate "," (toString r.1 :: r.2.map csvCell) ++ "\n"))

/-- `OUTPUT_DIR` from `main.py`. -/
def OUTPUT_DIR : String := "economic_indicators_data"

/-- `SERIES_IDS` from `main.py`: (FRED series id, display name). -/
def SERIES_IDS : List (String × String) := [
  ("UNRATE", "unemployment Ratio"),
  ("SAHMREALTIME", "Real-time Sahm Rule Recession Indicator"),
  ("ICSA", "Initial Claims"),
  ("USCONS", "All Employees, Construction"),
  ("JTSJOL", "Job Openings: Total Nonfarm"),
  ("DTWEXBGS", "Dollar index"),
  ("DCOILWTICO", "WTI Crude Oil"),
  ("CES4348400001", "All Employees, Truck Transportation"),
  ("M2SL", "M2"),
  ("M2V", "M2V"),
  ("GDPC1", "Real GDP"),
  ("AMTMNO", "PMI - New Orders"),
  ("BAMLH0A0HYM2EY", "High-Yield"),
  ("DGS10", "10 year treasury"),
  ("DGS2", "2 year treasury"),
  ("FEDFUNDS", "Federal Funds Effective Rate"),
  ("MORTGAGE30US", "30-Year Fixed Rate Mortgage Average in the United States"),
  ("CPIAUCSL", "Consumer Price Index for All Urban Consumers: All Items in U.S. City Average"),
  ("COMREPUSQ159N", "Commercial Real Estate Prices"),
  ("HPIPONM226S", "House Price Index (Purchase only)"),
  ("SP500", "s&p 500"),
  ("NASDAQCOM", "NASDAQ Composite Index"),
  ("DJCA", "Dow Jones Composite Average")]

/-- The path of the per-series intermediate file for a display name
(`os.path.join(OUTPUT_DIR, f"{series_name}.csv")`). -/
def seriesPath (series_name : String) : String :=
  OUTPUT_DIR ++ "/" ++ series_name ++ ".csv"

/-- The merged output file's path. -/
def mergedPath : String := OUTPUT_DIR ++ "/" ++ "economic_indicators.csv"

/-- Lines 121–125 of `main.py`: for each successful series, delete its
intermediate file if it exists. The file system is a duplicate-free list of
paths. -/
def cleanup (successful : List String) (fs : List String) : List String :=
  successful.foldl (fun fs name =>
    if seriesPath name ∈ fs then fs.erase (seriesPath name) else fs) fs

/-! ## Helper lemmas about column masks and label lookup -/

theorem maskFilter_map_filter {α : Type} (p : α → Bool) (l : List α) :
    maskFilter (l.map p) l = l.filter p := by
  induction l with
  | nil => rfl
  | cons x xs ih =>
    simp only [List.map_cons, maskFilter, List.filter_cons]
    cases h : p x
    · simp [ih]
    · simp [ih]

theorem rowCell_nil_cells (cols : List String) (c : String) :
    rowCell cols [] c = none := by
  cases cols <;> rfl

theorem rowCell_cons (c₀ : String) (cs : List String) (v : Option String)
    (vs : List (Option String)) (c : String) :
    rowCell (c₀ :: cs) (v :: vs) c =
      if c₀ = c then some v else rowCell cs vs c := by
  by_cases h : c₀ = c
  · simp [rowCell, List.find?_cons, h]
  · simp [rowCell, List.find?_cons, h]

theorem rowCell_not_mem (cols : List String) (cells : List (Option String))
    (c : String) (hc : c ∉ cols) : rowCell cols cells c = none := by
  induction cols generalizing cells with
  | nil => rfl
  | cons c₀ cs ih =>
    cases cells with
    | nil => exact rowCell_nil_cells _ _
    | cons v vs =>
      have hne : c₀ ≠ c := fun h => hc (h ▸ List.mem_cons_self _ _)
      rw [rowCell_cons, if_neg hne]
      exact ih vs (fun h => hc (List.mem_cons_of_mem _ h))

theorem rowCell_isSome (cols : List String) (cells : List (Option String))
    (c : String) (hc : c ∈ cols) (hlen : cells.length = cols.length) :
    (rowCell cols cells c).isSome := by
  induction cols generalizing cells with
  | nil => cases hc
  | cons c₀ cs ih =>
    cases cells with
    | nil => simp at hlen
    | cons v vs =>
      rw [rowCell_cons]
      by_cases h : c₀ = c
      · simp [h]
      · have : c ∈ cs := by
          rcases List.mem_cons.1 hc with h' | h'
          · exact absurd h'.symm h
          · exact h'
        simp only [if_neg h]
        exact ih vs this (by simpa using hlen)

theorem rowCell_append (A B : List String) (x y : List (Option String))
    (c : String) (h : A.length = x.length) :
    rowCell (A ++ B) (x ++ y) c = (rowCell A x c).or (rowCell B y c) := by
  induction A generalizing x with
  | nil =>
    cases x with
    | nil => simp [rowCell]
    | cons _ _ => simp at h
  | cons c₀ cs ih =>
    cases x with
    | nil => simp at h
    | cons v vs =>
      simp only [List.cons_append, rowCell_cons]
      by_cases hc : c₀ = c
      · simp [hc]
      · simp only [if_neg hc]
        exact ih vs (by simpa using h)

theorem rowCell_const_none (cols : List String) (c : String) (hc : c ∈ cols) :
    rowCell cols (cols.map (fun _ => none)) c = some none := by
  induction cols with
  | nil => cases hc
  | cons c₀ cs ih =>
    simp only [List.map_cons, rowCell_cons]
    by_cases h : c₀ = c
    · simp [h]
    · have : c ∈ cs := by
        rcases List.mem_cons.1 hc with h' | h'
        · exact absurd h'.symm h
        · exact h'
      simp only [if_neg h]
      exact ih this

theorem rowCell_self_map (sel : List String) (f : String → Option String)
    (c : String) (hc : c ∈ sel) :
    rowCell sel (sel.map f) c = some (f c) := by
  induction sel with
  | nil => cases hc
  | cons c₀ cs ih =>
    simp only [List.map_cons, rowCell_cons]
    by_cases h : c₀ = c
    · simp [h]
    · have : c ∈ cs := by
        rcases List.mem_cons.1 hc with h' | h'
        · exact absurd h'.symm h
        · exact h'
      simp only [if_neg h]
      exact ih this

theorem rowCell_maskFilter (p : String → Bool) (cols : List String)
    (cells : List (Option String)) (c : String) (hc : p c = true)
    (hlen : cells.length = cols.length) :
    rowCell (maskFilter (cols.map p) cols) (maskFilter (cols.map p) cells) c =
      rowCell cols cells c := by
  induction cols generalizing cells with
  | nil =>
    cases cells with
    | nil => rfl
    | cons _ _ => simp at hlen
  | cons c₀ cs ih =>
    cases cells with
    | nil => simp at hlen
    | cons v vs =>
      simp only [List.map_cons, maskFilter]
      by_cases hp : p c₀ = true
      · simp only [if_pos hp, rowCell_cons]
        by_cases h : c₀ = c
        · simp [h]
        · simp only [if_neg h]
          exact ih vs (by simpa using hlen)
      · have hne : c₀ ≠ c := fun h => hp (h ▸ hc)
        simp only [if_neg hp, rowCell_cons, if_neg hne]
        exact ih vs (by simpa using hlen)

/-! ## Helper lemmas about the sorts -/

theorem insertNat_perm (a : Nat) (l : List Nat) : (insertNat a l).Perm (a :: l) := by
  induction l with
  | nil => exact List.Perm.refl _
  | cons b t ih =>
    simp only [insertNat]
    by_cases h : a ≤ b
    · rw [if_pos h]
    · rw [if_neg h]
      exact (ih.cons b).trans (List.Perm.swap a b t)

theorem sortNats_perm (l : List Nat) : (sortNats l).Perm l := by
  induction l with
  | nil => exact List.Perm.refl _
  | cons a t ih => exact (insertNat_perm a (sortNats t)).trans (ih.cons a)

theorem insertNat_pairwise (a : Nat) (l : List Nat)
    (h : l.Pairwise (· ≤ ·)) : (insertNat a l).Pairwise (· ≤ ·) := by
  induction l with
  | nil => simp [insertNat]
  | cons b t ih =>
    simp only [insertNat]
    by_cases hab : a ≤ b
    · rw [if_pos hab]
      refine List.Pairwise.cons ?_ h
      intro x hx
      rcases List.mem_cons.1 hx with rfl | hx
      · exact hab
      · exact le_trans hab (List.rel_of_pairwise_cons h hx)
    · rw [if_neg hab]
      have hb : ∀ x ∈ insertNat a t, b ≤ x := by
        intro x hx
        have hx' : x ∈ a :: t := (insertNat_perm a t).mem_iff.1 hx
        rcases List.mem_cons.1 hx' with rfl | hxt
        · omega
        · exact List.rel_of_pairwise_cons h hxt
      exact List.Pairwise.cons hb (ih (List.Pairwise.of_cons h))

theorem sortNats_pairwise (l : List Nat) : (sortNats l).Pairwise (· ≤ ·) := by
  induction l with
  | nil => simp [sortNats]
  | cons a t ih => exact insertNat_pairwise a (sortNats t) ih

theorem sortNats_eq_of_mem_iff (l₁ l₂ : List Nat) (h₁ : l₁.Nodup)
    (h₂ : l₂.Nodup) (hm : ∀ a, a ∈ l₁ ↔ a ∈ l₂) : sortNats l₁ = sortNats l₂ := by
  have hperm : l₁.Perm l₂ := (List.perm_ext_iff_of_nodup h₁ h₂).2 hm
  exact List.eq_of_perm_of_sorted
    ((sortNats_perm l₁).trans (hperm.trans (sortNats_perm l₂).symm))
    (sortNats_pairwise l₁) (sortNats_pairwise l₂)

theorem insertRow_map (g : Nat → List (Option String)) (a : Nat) (l : List Nat) :
    insertRow (a, g a) (l.map (fun d => (d, g d))) =
      (insertNat a l).map (fun d => (d, g d)) := by
  induction l with
  | nil => rfl
  | cons b t ih =>
    simp only [List.map_cons, insertRow, insertNat]
    by_cases h : a ≤ b
    · rw [if_pos h, if_pos h]
      simp
    · rw [if_neg h, if_neg h, List.map_cons, ih]

theorem sortRows_map (g : Nat → List (Option String)) (l : List Nat) :
    sortRows (l.map (fun d => (d, g d))) =
      (sortNats l).map (fun d => (d, g d)) := by
  induction l with
  | nil => rfl
  | cons a t ih =>
    simp only [List.map_cons, sortRows, sortNats, ih]
    exact insertRow_map g a (sortNats t)

/-! ## Helper lemmas about the outer join -/

theorem cellsAt_length (df : DFrame) (d : Nat) (h : df.Rect) :
    (df.cellsAt d).length = df.cols.length := by
  unfold DFrame.cellsAt DFrame.lookupRow
  cases hf : df.rows.find? (fun r => decide (r.1 = d)) with
  | none => simp
  | some r => simpa using h r (List.mem_of_find?_eq_some hf)

theorem cellsAt_of_not_mem (df : DFrame) (d : Nat) (h : d ∉ df.dates) :
    df.cellsAt d = df.cols.map (fun _ => none) := by
  have hnone : df.lookupRow d = none := by
    unfold DFrame.lookupRow
    have : df.rows.find? (fun r => decide (r.1 = d)) = none := by
      rw [List.find?_eq_none]
      intro r hr
      simp only [decide_eq_true_eq]
      intro hd
      exact h (hd ▸ List.mem_map_of_mem Prod.fst hr)
    rw [this]
    rfl
  unfold DFrame.cellsAt
  rw [hnone]

theorem flatMap_cells_length (dfs : List DFrame) (d : Nat)
    (hrect : ∀ df ∈ dfs, df.Rect) :
    (dfs.flatMap (fun df => df.cellsAt d)).length =
      (dfs.flatMap DFrame.cols).length := by
  induction dfs with
  | nil => rfl
  | cons df rest ih =>
    simp only [List.flatMap_cons, List.length_append]
    rw [cellsAt_length df d (hrect df (List.mem_cons_self _ _)),
      ih (fun x hx => hrect x (List.mem_cons_of_mem _ hx))]

theorem rowCell_flatMap (dfs : List DFrame) (d : Nat) (c : String)
    (hrect : ∀ df ∈ dfs, df.Rect) :
    rowCell (dfs.flatMap DFrame.cols) (dfs.flatMap (fun df => df.cellsAt d)) c =
      match dfs.find? (fun df => decide (c ∈ df.cols)) with
      | some df => rowCell df.cols (df.cellsAt d) c
      | none => none := by
  induction dfs with
  | nil => rfl
  | cons df rest ih =>
    have hlen := cellsAt_length df d (hrect df (List.mem_cons_self _ _))
    rw [List.flatMap_cons, List.flatMap_cons, List.find?_cons,
      rowCell_append _ _ _ _ _ hlen.symm]
    by_cases hc : c ∈ df.cols
    · rw [decide_eq_true hc]
      obtain ⟨v, hv⟩ := Option.isSome_iff_exists.1
        (rowCell_isSome df.cols (df.cellsAt d) c hc hlen)
      rw [hv]
      exact hv.symm
    · rw [decide_eq_false hc]
      rw [rowCell_not_mem df.cols _ c hc, Option.none_or]
      exact ih (fun x hx => hrect x (List.mem_cons_of_mem _ hx))

theorem find?_eq_some_of_unique {α : Type} (p : α → Bool) (l : List α) (x : α)
    (hx : x ∈ l) (hpx : p x = true)
    (hu : l.Pairwise (fun a b => ¬(p a = true ∧ p b = true))) :
    l.find? p = some x := by
  induction l with
  | nil => cases hx
  | cons a t ih =>
    rw [List.find?_cons]
    by_cases hpa : p a = true
    · rw [hpa]
      rcases List.mem_cons.1 hx with rfl | hxt
      · rfl
      · exact absurd ⟨hpa, hpx⟩ (List.rel_of_pairwise_cons hu hxt)
    · rw [Bool.eq_false_iff.2 hpa]
      rcases List.mem_cons.1 hx with rfl | hxt
      · exact absurd hpx hpa
      · exact ih hxt (List.Pairwise.of_cons hu)

theorem find?_perm_of_unique {α : Type} (p : α → Bool) (l₁ l₂ : List α)
    (hperm : l₁.Perm l₂)
    (hu : l₁.Pairwise (fun a b => ¬(p a = true ∧ p b = true))) :
    l₁.find? p = l₂.find? p := by
  cases hf : l₁.find? p with
  | some x =>
    exact (find?_eq_some_of_unique p l₂ x (hperm.mem_iff.1 (List.mem_of_find?_eq_some hf))
      (List.find?_some hf)
      ((hperm.pairwise_iff (fun {_ _} h hc => h ⟨hc.2, hc.1⟩)).1 hu)).symm
  | none =>
    symm
    rw [List.find?_eq_none] at hf ⊢
    exact fun x hx => hf x (hperm.mem_iff.2 hx)

/-! ## Derived views of the merge phase -/

/-- All columns of the concatenated frame, in concatenation order. -/
def allCols (dfs : List DFrame) : List String := dfs.flatMap DFrame.cols

/-- The concatenated columns after the realtime drop. -/
def droppedCols (dfs : List DFrame) : List String :=
  (allCols dfs).filter (fun c => !isRealtimeCol c)

/-- The union of the input frames' dates (each date once). -/
def allDates (dfs : List DFrame) : List Nat :=
  (dfs.flatMap DFrame.dates).dedup

/-- The merged frame's final column list: the configured display names, in
configured order, restricted to columns present after the merge and drop. -/
def mergedSel (cfg : List (String × String)) (dfs : List DFrame) : List String :=
  (cfg.map Prod.snd).filter (fun c => decide (c ∈ droppedCols dfs))

/-- The concatenated row's cell under label `c` for date `d`. -/
def mergedCellRaw (dfs : List DFrame) (d : Nat) (c : String) :
    Option (Option String) :=
  rowCell (allCols dfs) (dfs.flatMap (fun df => df.cellsAt d)) c

/-- The merged frame's final row for date `d`. -/
def mergedRowAt (cfg : List (String × String)) (dfs : List DFrame) (d : Nat) :
    Nat × List (Option String) :=
  (d, (mergedSel cfg dfs).map (fun c => (mergedCellRaw dfs d c).getD none))

theorem mergePipeline_nil (cfg : List (String × String)) :
    mergePipeline cfg [] = .error "ValueError: No objects to concatenate" := rfl

theorem mergePipeline_cols (cfg : List (String × String)) (dfs : List DFrame)
    (m : DFrame) (h : mergePipeline cfg dfs = .ok m) :
    m.cols = mergedSel cfg dfs := by
  cases dfs with
  | nil => simp [mergePipeline_nil] at h
  | cons df0 rest =>
    simp only [mergePipeline, concatOuter] at h
    simp only [Except.ok.injEq] at h
    subst h
    simp only [DFrame.selectCols, DFrame.sortByDate, DFrame.dropRealtime,
      columnsOrder, mergedSel, droppedCols, allCols, maskFilter_map_filter]

theorem map_comp_row (mask : List Bool) (g : Nat → List (Option String))
    (l : List Nat) :
    (l.map (fun d => (d, g d))).map (fun r => (r.1, maskFilter mask r.2)) =
      l.map (fun d => (d, maskFilter mask (g d))) := by
  induction l <;> simp_all

theorem map_comp_sel (cols2 sel : List String) (g : Nat → List (Option String))
    (l : List Nat) :
    (l.map (fun d => (d, g d))).map
        (fun r => (r.1, sel.map (fun c => (rowCell cols2 r.2 c).getD none))) =
      l.map (fun d => (d, sel.map (fun c => (rowCell cols2 (g d) c).getD none))) := by
  induction l <;> simp_all

theorem mergePipeline_shape (cfg : List (String × String)) (dfs : List DFrame)
    (hne : dfs ≠ []) (hrect : ∀ df ∈ dfs, df.Rect) :
    mergePipeline cfg dfs =
      .ok ⟨mergedSel cfg dfs, (sortNats (allDates dfs)).map (mergedRowAt cfg dfs)⟩ := by
  obtain ⟨df0, rest, rfl⟩ : ∃ df0 rest, dfs = df0 :: rest := by
    cases dfs with
    | nil => exact absurd rfl hne
    | cons a l => exact ⟨a, l, rfl⟩
  have hmask : maskFilter (((df0 :: rest).flatMap DFrame.cols).map (fun c => !isRealtimeCol c))
      ((df0 :: rest).flatMap DFrame.cols) =
      ((df0 :: rest).flatMap DFrame.cols).filter (fun c => !isRealtimeCol c) :=
    maskFilter_map_filter _ _
  have hlen : ∀ d, ((df0 :: rest).flatMap (fun df => df.cellsAt d)).length =
      ((df0 :: rest).flatMap DFrame.cols).length :=
    fun d => flatMap_cells_length _ d hrect
  simp only [mergePipeline, concatOuter, Except.ok.injEq]
  simp only [DFrame.sortByDate, DFrame.dropRealtime, DFrame.selectCols, columnsOrder]
  rw [map_comp_row, sortRows_map, map_comp_sel]
  simp only [hmask]
  simp only [mergedSel, mergedRowAt, mergedCellRaw, droppedCols, allCols, allDates]
  congr 1
  refine List.map_congr_left ?_
  intro d _
  refine congrArg _ (List.map_congr_left ?_)
  intro c hc
  have hc2 : c ∈ ((df0 :: rest).flatMap DFrame.cols).filter (fun c => !isRealtimeCol c) :=
    of_decide_eq_true (List.mem_filter.1 hc).2
  have hcp : (!isRealtimeCol c) = true := (List.mem_filter.1 hc2).2
  rw [← hmask, rowCell_maskFilter _ _ _ c hcp (hlen d)]
  rfl

/-! ## Helper lemmas about the fetcher -/

theorem getData_ok_shape (series_name : String) (obs : List Obs)
    (hne : obs ≠ []) :
    getData series_name (.ok ⟨some obs⟩) =
      .ok (((rawSeriesDF series_name obs).filterNumeric series_name).dropRealtime) := by
  cases obs with
  | nil => exact absurd rfl hne
  | cons o t => rfl

theorem rawSeries_rowCell (series_name : String) (obs : List Obs)
    (hname : series_name ∉ extraKeys obs) (o : Obs) :
    rowCell (extraKeys obs ++ [series_name])
      ((extraKeys obs).map (getCell o) ++ [some o.value]) series_name =
      some (some o.value) := by
  rw [rowCell_append _ _ _ _ _ (List.length_map _ _).symm,
    rowCell_not_mem _ _ _ hname, Option.none_or, rowCell_cons]
  simp

theorem filterNumeric_rawSeries (series_name : String) (obs : List Obs)
    (hname : series_name ∉ extraKeys obs) :
    (rawSeriesDF series_name obs).filterNumeric series_name =
      ⟨extraKeys obs ++ [series_name],
       (obs.filter (fun o => isNumericStr o.value)).map
         (fun o => (o.date, (extraKeys obs).map (getCell o) ++ [some o.value]))⟩ := by
  simp only [rawSeriesDF, DFrame.filterNumeric]
  congr 1
  rw [List.filter_map]
  congr 1
  apply List.filter_congr
  intro o ho
  show (match rowCell (extraKeys obs ++ [series_name])
      ((extraKeys obs).map (getCell o) ++ [some o.value]) series_name with
    | some (some v) => isNumericStr v
    | _ => false) = isNumericStr o.value
  rw [rawSeries_rowCell series_name obs hname o]

theorem getData_ok_full (series_name : String) (obs : List Obs)
    (hne : obs ≠ []) (hname : series_name ∉ extraKeys obs) :
    getData series_name (.ok ⟨some obs⟩) =
      .ok (DFrame.dropRealtime ⟨extraKeys obs ++ [series_name],
        (obs.filter (fun o => isNumericStr o.value)).map
          (fun o => (o.date, (extraKeys obs).map (getCell o) ++ [some o.value]))⟩) := by
  rw [getData_ok_shape _ _ hne, filterNumeric_rawSeries _ _ hname]

theorem dropRealtime_cols (df : DFrame) :
    ∀ c ∈ df.dropRealtime.cols, isRealtimeCol c = false := by
  intro c hc
  simp only [DFrame.dropRealtime] at hc
  rw [maskFilter_map_filter] at hc
  have := (List.mem_filter.1 hc).2
  simpa using this

theorem dropRealtime_dates (df : DFrame) :
    df.dropRealtime.dates = df.dates := by
  unfold DFrame.dropRealtime DFrame.dates
  rw [List.map_map]
  rfl

/-! ## Helper lemmas about the dispatcher's consumer loop -/

/-- The frame a completed fetch contributes to `dfs`, if any. -/
def okNonempty (r : String × Except String DFrame) : Option DFrame :=
  match r.2 with
  | .ok df => if df.isEmpty then none else some df
  | .error _ => none

/-- The name a completed fetch contributes to `successful_series`, if any. -/
def okNonemptyName (r : String × Except String DFrame) : Option String :=
  match r.2 with
  | .ok df => if df.isEmpty then none else some r.1
  | .error _ => none

theorem collect_eq_filterMap (results : List (String × Except String DFrame)) :
    collect results =
      (results.filterMap okNonempty, results.filterMap okNonemptyName) := by
  suffices h : ∀ acc : List DFrame × List String,
      results.foldl collectStep acc =
        (acc.1 ++ results.filterMap okNonempty,
         acc.2 ++ results.filterMap okNonemptyName) by
    simpa [collect] using h ([], [])
  induction results with
  | nil => intro acc; simp
  | cons r rs ih =>
    intro acc
    rw [List.foldl_cons]
    cases hr : r.2 with
    | ok df =>
      by_cases he : df.isEmpty
      · rw [ih]
        simp [collectStep, okNonempty, okNonemptyName, hr, he]
      · rw [ih]
        simp [collectStep, okNonempty, okNonemptyName, hr, he]
    | error e =>
      rw [ih]
      simp [collectStep, okNonempty, okNonemptyName, hr]

/-! ## Helper lemmas about the cleanup step -/

theorem cleanup_mem (successful : List String) (fs : List String)
    (hfs : fs.Nodup) (f : String) :
    f ∈ cleanup successful fs ↔ f ∈ fs ∧ ∀ n ∈ successful, f ≠ seriesPath n := by
  induction successful generalizing fs with
  | nil => simp [cleanup]
  | cons n rest ih =>
    have hstep : ∀ g : String,
        (g ∈ (if seriesPath n ∈ fs then fs.erase (seriesPath n) else fs)) ↔
          g ∈ fs ∧ g ≠ seriesPath n := by
      intro g
      by_cases hmem : seriesPath n ∈ fs
      · rw [if_pos hmem, hfs.mem_erase_iff]
        tauto
      · rw [if_neg hmem]
        constructor
        · intro hg
          exact ⟨hg, fun heq => hmem (heq ▸ hg)⟩
        · exact fun h => h.1
    have hnd : (if seriesPath n ∈ fs then fs.erase (seriesPath n) else fs).Nodup := by
      by_cases hmem : seriesPath n ∈ fs
      · rw [if_pos hmem]; exact hfs.erase _
      · rw [if_neg hmem]; exact hfs
    show f ∈ cleanup rest _ ↔ _
    rw [ih _ hnd]
    constructor
    · rintro ⟨hf, hrest⟩
      obtain ⟨hffs, hfn⟩ := (hstep f).1 hf
      refine ⟨hffs, ?_⟩
      intro x hx
      rcases List.mem_cons.1 hx with rfl | hx
      · exact hfn
      · exact hrest x hx
    · rintro ⟨hffs, hall⟩
      refine ⟨(hstep f).2 ⟨hffs, hall n (List.mem_cons_self _ _)⟩, ?_⟩
      exact fun x hx => hall x (List.mem_cons_of_mem _ hx)

/-! ## Permutation invariance of the merge phase -/

theorem droppedCols_mem_iff_of_perm (dfs dfs' : List DFrame)
    (hperm : dfs.Perm dfs') (c : String) :
    c ∈ droppedCols dfs ↔ c ∈ droppedCols dfs' := by
  unfold droppedCols allCols
  simp only [List.mem_filter, List.mem_flatMap]
  constructor
  · rintro ⟨⟨df, hdf, hc⟩, hp⟩
    exact ⟨⟨df, hperm.mem_iff.1 hdf, hc⟩, hp⟩
  · rintro ⟨⟨df, hdf, hc⟩, hp⟩
    exact ⟨⟨df, hperm.mem_iff.2 hdf, hc⟩, hp⟩

theorem mergedSel_perm (cfg : List (String × String)) (dfs dfs' : List DFrame)
    (hperm : dfs.Perm dfs') :
    mergedSel cfg dfs = mergedSel cfg dfs' := by
  unfold mergedSel
  exact List.filter_congr
    (fun c _ => decide_eq_decide.2 (droppedCols_mem_iff_of_perm dfs dfs' hperm c))

theorem allDates_mem_iff_of_perm (dfs dfs' : List DFrame)
    (hperm : dfs.Perm dfs') (d : Nat) :
    d ∈ allDates dfs ↔ d ∈ allDates dfs' := by
  unfold allDates
  simp only [List.mem_dedup, List.mem_flatMap]
  constructor
  · rintro ⟨df, hdf, hd⟩
    exact ⟨df, hperm.mem_iff.1 hdf, hd⟩
  · rintro ⟨df, hdf, hd⟩
    exact ⟨df, hperm.mem_iff.2 hdf, hd⟩

theorem pairwise_not_both_of_disjoint (dfs : List DFrame) (c : String)
    (hdisj : (dfs.map DFrame.cols).Pairwise (fun a b => ∀ x ∈ a, x ∉ b)) :
    dfs.Pairwise (fun a b =>
      ¬(decide (c ∈ a.cols) = true ∧ decide (c ∈ b.cols) = true)) := by
  have h := (List.pairwise_map).1 hdisj
  exact h.imp (fun hab h2 =>
    hab c (of_decide_eq_true h2.1) (of_decide_eq_true h2.2))

theorem mergedCellRaw_perm (dfs dfs' : List DFrame) (hperm : dfs.Perm dfs')
    (hrect : ∀ df ∈ dfs, df.Rect)
    (hdisj : (dfs.map DFrame.cols).Pairwise (fun a b => ∀ x ∈ a, x ∉ b))
    (d : Nat) (c : String) :
    mergedCellRaw dfs d c = mergedCellRaw dfs' d c := by
  have hrect' : ∀ df ∈ dfs', df.Rect := fun df hdf => hrect df (hperm.mem_iff.2 hdf)
  unfold mergedCellRaw allCols
  rw [rowCell_flatMap dfs d c hrect, rowCell_flatMap dfs' d c hrect']
  rw [find?_perm_of_unique _ dfs dfs' hperm (pairwise_not_both_of_disjoint dfs c hdisj)]

theorem mergedRowAt_perm (cfg : List (String × String)) (dfs dfs' : List DFrame)
    (hperm : dfs.Perm dfs') (hrect : ∀ df ∈ dfs, df.Rect)
    (hdisj : (dfs.map DFrame.cols).Pairwise (fun a b => ∀ x ∈ a, x ∉ b))
    (d : Nat) :
    mergedRowAt cfg dfs d = mergedRowAt cfg dfs' d := by
  unfold mergedRowAt
  rw [mergedSel_perm cfg dfs dfs' hperm]
  refine congrArg _ (List.map_congr_left ?_)
  intro c _
  rw [mergedCellRaw_perm dfs dfs' hperm hrect hdisj]

theorem mergePipeline_perm (cfg : List (String × String)) (dfs dfs' : List DFrame)
    (hperm : dfs.Perm dfs') (hrect : ∀ df ∈ dfs, df.Rect)
    (hdisj : (dfs.map DFrame.cols).Pairwise (fun a b => ∀ x ∈ a, x ∉ b)) :
    mergePipeline cfg dfs = mergePipeline cfg dfs' := by
  cases dfs with
  | nil =>
    have : dfs' = [] := hperm.symm.eq_nil
    rw [this]
  | cons df0 rest =>
    have hne : df0 :: rest ≠ [] := by simp
    have hne' : dfs' ≠ [] := by
      intro h
      exact absurd (h ▸ hperm).eq_nil (by simp)
    have hrect' : ∀ df ∈ dfs', df.Rect :=
      fun df hdf => hrect df (hperm.mem_iff.2 hdf)
    rw [mergePipeline_shape cfg _ hne hrect, mergePipeline_shape cfg dfs' hne' hrect']
    have hdates : sortNats (allDates (df0 :: rest)) = sortNats (allDates dfs') :=
      sortNats_eq_of_mem_iff _ _ (List.nodup_dedup _) (List.nodup_dedup _)
        (allDates_mem_iff_of_perm _ _ hperm)
    rw [mergedSel_perm cfg _ dfs' hperm, hdates]
    refine congrArg _ (congrArg _ (List.map_congr_left ?_))
    intro d _
    exact mergedRowAt_perm cfg _ dfs' hperm hrect hdisj d

/-! ## Helper lemmas about paths -/

theorem configured_seriesPath_ne_mergedPath :
    ∀ n ∈ SERIES_IDS.map Prod.snd, seriesPath n ≠ mergedPath := by decide

/-! ## Concrete test fixtures -/

instance {ε α : Type} [DecidableEq ε] [DecidableEq α] :
    DecidableEq (Except ε α) := fun a b =>
  match a, b with
  | .error e, .error e' =>
    decidable_of_iff (e = e') ⟨fun h => by rw [h], fun h => by injection h⟩
  | .ok x, .ok y =>
    decidable_of_iff (x = y) ⟨fun h => by rw [h], fun h => by injection h⟩
  | .error _, .ok _ => isFalse (fun h => nomatch h)
  | .ok _, .error _ => isFalse (fun h => nomatch h)

/-- A two-record observations array: one numeric value, one FRED missing
marker `"."`, each with a `realtime_start` metadata field. -/
def obsA : List Obs :=
  [⟨1, "3.5", [("realtime_start", "2020-01-01")]⟩,
   ⟨2, ".", [("realtime_start", "2020-01-01")]⟩]

/-- A series table with column `A` and dates 1, 2. -/
def dfA : DFrame := ⟨["A"], [(1, [some "1.0"]), (2, [some "2.0"])]⟩

/-- A series table with column `B` and dates 2, 3. -/
def dfB : DFrame := ⟨["B"], [(2, [some "5"]), (3, [some "6"])]⟩

/-- A two-series configuration. -/
def cfgAB : List (String × String) := [("a", "A"), ("b", "B")]

/-- The merged table of `dfA` and `dfB` under `cfgAB`. -/
def mAB : DFrame :=
  ⟨["A", "B"],
   [(1, [some "1.0", none]), (2, [some "2.0", some "5"]), (3, [none, some "6"])]⟩

/-! ## Claim theorems -/

/-- C1 counterexample: when zero series succeed the collected list is empty,
and the merge phase is `pd.concat([], axis=1)`, which raises
`ValueError: No objects to concatenate` instead of producing an empty merged
table — so no output file is written, contrary to the claim. -/
theorem concat_empty_raises :
    mergePipeline SERIES_IDS [] =
      .error "ValueError: No objects to concatenate" := rfl

/-- C1 (amended): if zero series succeed (the collected list of non-empty
series tables is empty), the run raises `ValueError: No objects to
concatenate` from `pd.concat` and fails before writing any output file,
rather than producing an empty merged table. -/
theorem allFailed_run_errors (cfg : List (String × String))
    (results : List (String × Except String DFrame))
    (h : (collect results).1 = []) :
    runPipeline cfg results = .error "ValueError: No objects to concatenate" := by
  unfold runPipeline
  rw [h]
  rfl

/-- C1 witness: a run whose only fetch raised a transport error collects
nothing and the pipeline fails with the `ValueError`. -/
theorem allFailed_run_errors_witness :
    (collect [("Initial Claims", Except.error "ConnectionError")]).1 = [] ∧
    runPipeline SERIES_IDS [("Initial Claims", Except.error "ConnectionError")] =
      .error "ValueError: No objects to concatenate" :=
  ⟨by decide,
   allFailed_run_errors SERIES_IDS
     [("Initial Claims", Except.error "ConnectionError")] (by decide)⟩

/-- C2 counterexample: on a well-formed JSON response that lacks the
`observations` field, `data["observations"]` raises a `KeyError`, which the
`except requests.RequestException` clause does not catch — `get_data` raises
to its caller instead of returning an empty table. -/
theorem getData_missing_observations_raises :
    getData "Initial Claims" (.ok ⟨none⟩) = .error "KeyError: observations" := rfl

/-- C2 (amended): on HTTP error status, transport failure, or malformed JSON
body (all `requests.RequestException` subclasses) the fetcher returns an
empty table; but on a response missing the `observations` field it raises a
`KeyError` to its caller (where the dispatcher's per-task handler catches
it). -/
theorem getData_failure_modes (series_name : String) :
    getData series_name .httpError = .ok emptyDF ∧
    getData series_name .transportError = .ok emptyDF ∧
    getData series_name .badJson = .ok emptyDF ∧
    getData series_name (.ok ⟨none⟩) = .error "KeyError: observations" :=
  ⟨rfl, rfl, rfl, rfl⟩

/-- C3: for a well-formed response, the series table's value column consists
of exactly the observation records whose `value` parses as a number, in
order, with date and value unchanged; rows with non-numeric values are
excluded. (The display name is assumed not to collide with a metadata key
nor to carry the reserved realtime marker — true of every configured name.) -/
theorem getData_numeric_row_filter (series_name : String) (obs : List Obs)
    (hne : obs ≠ []) (hname : series_name ∉ extraKeys obs)
    (hrt : isRealtimeCol series_name = false) :
    ∃ df, getData series_name (.ok ⟨some obs⟩) = .ok df ∧
      df.rows.map (fun r => (r.1, rowCell df.cols r.2 series_name)) =
        (obs.filter (fun o => isNumericStr o.value)).map
          (fun o => (o.date, some (some o.value))) := by
  refine ⟨_, getData_ok_full series_name obs hne hname, ?_⟩
  simp only [DFrame.dropRealtime]
  rw [List.map_map, List.map_map]
  refine List.map_congr_left ?_
  intro o ho
  show (o.date, rowCell
      (maskFilter ((extraKeys obs ++ [series_name]).map (fun c => !isRealtimeCol c))
        (extraKeys obs ++ [series_name]))
      (maskFilter ((extraKeys obs ++ [series_name]).map (fun c => !isRealtimeCol c))
        ((extraKeys obs).map (getCell o) ++ [some o.value])) series_name) =
    (o.date, some (some o.value))
  rw [rowCell_maskFilter _ _ _ _ (by rw [hrt]; rfl) (by simp),
    rawSeries_rowCell series_name obs hname o]

/-- C3 witness: on `obsA` the numeric row (date 1, value `"3.5"`) is kept and
the `"."` row is dropped. -/
theorem getData_numeric_row_filter_witness :
    obsA ≠ [] ∧ "Initial Claims" ∉ extraKeys obsA ∧
    isRealtimeCol "Initial Claims" = false ∧
    (∃ df, getData "Initial Claims" (.ok ⟨some obsA⟩) = .ok df ∧
      df.rows.map (fun r => (r.1, rowCell df.cols r.2 "Initial Claims")) =
        (obsA.filter (fun o => isNumericStr o.value)).map
          (fun o => (o.date, some (some o.value)))) :=
  ⟨by decide, by decide, by decide,
   getData_numeric_row_filter "Initial Claims" obsA (by decide) (by decide) (by decide)⟩

/-- C4: no column whose name starts with `realtime` appears in any series
table returned by the fetcher, nor in any merged table produced by the merge
phase. -/
theorem no_realtime_columns :
    (∀ series_name r df, getData series_name r = Except.ok df →
      ∀ c ∈ df.cols, isRealtimeCol c = false) ∧
    (∀ cfg dfs m, mergePipeline cfg dfs = Except.ok m →
      ∀ c ∈ m.cols, isRealtimeCol c = false) := by
  constructor
  · intro series_name r df h1
    cases r with
    | httpError =>
      have h2 : emptyDF = df := by injection h1
      intro c hc
      rw [← h2] at hc
      simp [emptyDF] at hc
    | transportError =>
      have h2 : emptyDF = df := by injection h1
      intro c hc
      rw [← h2] at hc
      simp [emptyDF] at hc
    | badJson =>
      have h2 : emptyDF = df := by injection h1
      intro c hc
      rw [← h2] at hc
      simp [emptyDF] at hc
    | ok body =>
      obtain ⟨obsOpt⟩ := body
      cases obsOpt with
      | none => simp [getData] at h1
      | some obs =>
        cases obs with
        | nil => simp [getData] at h1
        | cons o t =>
          rw [getData_ok_shape series_name (o :: t) (by simp)] at h1
          have h2 : ((rawSeriesDF series_name (o :: t)).filterNumeric
              series_name).dropRealtime = df := by injection h1
          rw [← h2]
          exact dropRealtime_cols _
  · intro cfg dfs m h2 c hc
    rw [mergePipeline_cols cfg dfs m h2] at hc
    have hc2 : c ∈ droppedCols dfs := of_decide_eq_true (List.mem_filter.1 hc).2
    simp only [droppedCols] at hc2
    have := (List.mem_filter.1 hc2).2
    simpa using this

/-- C4 witness: the fetched table for `obsA` and the merged table `mAB` have
no realtime-marked column. -/
theorem no_realtime_columns_witness :
    (∀ c ∈ (DFrame.mk ["Initial Claims"] [(1, [some "3.5"])]).cols,
      isRealtimeCol c = false) ∧
    (∀ c ∈ mAB.cols, isRealtimeCol c = false) :=
  ⟨no_realtime_columns.1 "Initial Claims" (.ok ⟨some obsA⟩) _ (by decide),
   no_realtime_columns.2 cfgAB [dfA, dfB] mAB (by decide)⟩

/-- C5: the merged table's column list is exactly the configured display
names, in configured order, restricted to the columns present in the merge
result after the realtime drop; hence its column set is contained in the
configured display names; and it is invariant under any permutation of the
collected tables, i.e. independent of fetch completion order. -/
theorem merged_column_order (cfg : List (String × String)) (dfs : List DFrame)
    (m : DFrame) (h : mergePipeline cfg dfs = Except.ok m) :
    m.cols = (cfg.map Prod.snd).filter
        (fun c => decide (c ∈ (dfs.flatMap DFrame.cols).filter
          (fun x => !isRealtimeCol x))) ∧
    (∀ c ∈ m.cols, c ∈ cfg.map Prod.snd) ∧
    (∀ dfs' m', dfs.Perm dfs' → mergePipeline cfg dfs' = Except.ok m' →
      m'.cols = m.cols) := by
  have h1 := mergePipeline_cols cfg dfs m h
  refine ⟨by rw [h1]; rfl, ?_, ?_⟩
  · intro c hc
    rw [h1] at hc
    exact (List.mem_filter.1 hc).1
  · intro dfs' m' hperm h'
    rw [mergePipeline_cols cfg dfs' m' h', h1]
    exact (mergedSel_perm cfg dfs dfs' hperm).symm

/-- C5 witness: merging `dfA` and `dfB` under `cfgAB` yields columns
`["A", "B"]`, the configured order. -/
theorem merged_column_order_witness :
    mAB.cols = (cfgAB.map Prod.snd).filter
        (fun c => decide (c ∈ (([dfA, dfB] : List DFrame).flatMap DFrame.cols).filter
          (fun x => !isRealtimeCol x))) ∧
    (∀ c ∈ mAB.cols, c ∈ cfgAB.map Prod.snd) ∧
    (∀ dfs' m', ([dfA, dfB] : List DFrame).Perm dfs' →
      mergePipeline cfgAB dfs' = Except.ok m' → m'.cols = mAB.cols) :=
  merged_column_order cfgAB [dfA, dfB] mAB (by decide)

/-- C6: for a non-empty collection of series tables (rectangular, with
unique dates and pairwise disjoint column names, as every collected set of
per-series tables is), the merged table has exactly one row per date in the
union of the inputs' date sets, sorted ascending; and on a merged row whose
date a series lacks, that series' column holds an empty cell rather than the
row being omitted. -/
theorem merged_outer_join_rows (cfg : List (String × String)) (dfs : List DFrame)
    (m : DFrame) (hne : dfs ≠ [])
    (hrect : ∀ df ∈ dfs, df.Rect)
    (hnd : ∀ df ∈ dfs, df.dates.Nodup)
    (hdisj : (dfs.map DFrame.cols).Pairwise (fun a b => ∀ x ∈ a, x ∉ b))
    (h : mergePipeline cfg dfs = Except.ok m) :
    m.dates.Nodup ∧
    (∀ d, d ∈ m.dates ↔ ∃ df ∈ dfs, d ∈ df.dates) ∧
    m.dates.Pairwise (· ≤ ·) ∧
    (∀ df ∈ dfs, ∀ c ∈ df.cols, c ∈ m.cols →
      ∀ r ∈ m.rows, r.1 ∉ df.dates → rowCell m.cols r.2 c = some none) := by
  rw [mergePipeline_shape cfg dfs hne hrect] at h
  have h2 : (DFrame.mk (mergedSel cfg dfs)
      ((sortNats (allDates dfs)).map (mergedRowAt cfg dfs))) = m := by injection h
  subst h2
  have hdates : (DFrame.mk (mergedSel cfg dfs)
      ((sortNats (allDates dfs)).map (mergedRowAt cfg dfs))).dates =
      sortNats (allDates dfs) := by
    simp only [DFrame.dates, List.map_map]
    have hfst : (Prod.fst ∘ mergedRowAt cfg dfs) = id := by
      funext d
      rfl
    rw [hfst, List.map_id]
  refine ⟨?_, ?_, ?_, ?_⟩
  · rw [hdates]
    exact ((sortNats_perm _).nodup_iff).2 (List.nodup_dedup _)
  · intro d
    rw [hdates, (sortNats_perm _).mem_iff]
    unfold allDates
    rw [List.mem_dedup, List.mem_flatMap]
  · rw [hdates]
    exact sortNats_pairwise _
  · intro df hdf c hcdf hcm r hr hrd
    obtain ⟨d, hd, rfl⟩ := List.mem_map.1 hr
    have hrd' : d ∉ df.dates := hrd
    have hsome : mergedCellRaw dfs d c = some none := by
      unfold mergedCellRaw allCols
      rw [rowCell_flatMap dfs d c hrect,
        find?_eq_some_of_unique _ dfs df hdf (decide_eq_true hcdf)
          (pairwise_not_both_of_disjoint dfs c hdisj)]
      show rowCell df.cols (df.cellsAt d) c = some none
      rw [cellsAt_of_not_mem df d hrd']
      exact rowCell_const_none df.cols c hcdf
    show rowCell (mergedSel cfg dfs)
      ((mergedSel cfg dfs).map (fun c => (mergedCellRaw dfs d c).getD none)) c =
      some none
    rw [rowCell_self_map _ _ c hcm, hsome]
    rfl

/-- C6 witness: merging `dfA` (dates 1, 2) and `dfB` (dates 2, 3) yields one
row per date in {1, 2, 3}, sorted, with empty cells where a series lacks the
date. -/
theorem merged_outer_join_rows_witness :
    mAB.dates.Nodup ∧
    (∀ d, d ∈ mAB.dates ↔ ∃ df ∈ ([dfA, dfB] : List DFrame), d ∈ df.dates) ∧
    mAB.dates.Pairwise (· ≤ ·) ∧
    (∀ df ∈ ([dfA, dfB] : List DFrame), ∀ c ∈ df.cols, c ∈ mAB.cols →
      ∀ r ∈ mAB.rows, r.1 ∉ df.dates → rowCell mAB.cols r.2 c = some none) :=
  merged_outer_join_rows cfgAB [dfA, dfB] mAB (by decide) (by decide)
    (by decide) (by decide) (by decide)

/-- C7 counterexample: `set_index("date")` does not deduplicate, so a
response whose observations array repeats a date yields a series table with
that date occurring twice as a row key, contrary to the claim. -/
theorem getData_duplicate_dates_kept :
    (getData "Initial Claims"
        (.ok ⟨some [⟨5, "1.0", []⟩, ⟨5, "2.0", []⟩]⟩)).map
      (fun df => decide df.dates.Nodup) = Except.ok false := by decide

/-- C7 (amended): the fetcher does not deduplicate dates — the series
table's dates are exactly the dates of the retained observation records
(those whose value parses as numeric), in response order; hence the dates
occur once each precisely when the retained records' dates are distinct, and
in particular whenever the response's dates are distinct (as actual FRED
responses guarantee), while a response repeating a date across several
numeric-valued records repeats that row key. -/
theorem getData_dates_eq_kept_dates (series_name : String) (obs : List Obs)
    (hne : obs ≠ []) (hname : series_name ∉ extraKeys obs) :
    ∃ df, getData series_name (.ok ⟨some obs⟩) = .ok df ∧
      df.dates = (obs.filter (fun o => isNumericStr o.value)).map Obs.date ∧
      (df.dates.Nodup ↔
        ((obs.filter (fun o => isNumericStr o.value)).map Obs.date).Nodup) ∧
      ((obs.map Obs.date).Nodup → df.dates.Nodup) := by
  refine ⟨_, getData_ok_full series_name obs hne hname, ?_⟩
  have hd : (DFrame.dropRealtime ⟨extraKeys obs ++ [series_name],
      (obs.filter (fun o => isNumericStr o.value)).map
        (fun o => (o.date, (extraKeys obs).map (getCell o) ++ [some o.value]))⟩).dates =
      (obs.filter (fun o => isNumericStr o.value)).map Obs.date := by
    rw [dropRealtime_dates]
    simp only [DFrame.dates, List.map_map]
    rfl
  refine ⟨hd, by rw [hd], ?_⟩
  intro hnd
  rw [hd]
  exact hnd.sublist ((List.filter_sublist _).map Obs.date)

/-- A response body repeating date 5: one numeric value and one FRED missing
marker. -/
def obsDup : List Obs := [⟨5, "1.0", []⟩, ⟨5, ".", []⟩]

/-- C7 witness: on `obsDup`, which repeats date 5, the numeric filter keeps
only the `"1.0"` record, the table's dates equal the retained records' dates
`[5]`, and the uniqueness biconditional holds. -/
theorem getData_dates_eq_kept_dates_witness :
    obsDup ≠ [] ∧ "Initial Claims" ∉ extraKeys obsDup ∧
    (∃ df, getData "Initial Claims" (.ok ⟨some obsDup⟩) = .ok df ∧
      df.dates = (obsDup.filter (fun o => isNumericStr o.value)).map Obs.date ∧
      (df.dates.Nodup ↔
        ((obsDup.filter (fun o => isNumericStr o.value)).map Obs.date).Nodup) ∧
      ((obsDup.map Obs.date).Nodup → df.dates.Nodup)) :=
  ⟨by decide, by decide,
   getData_dates_eq_kept_dates "Initial Claims" obsDup (by decide) (by decide)⟩

/-- C8: the pipeline is deterministic in its input data — for two completion
orders that are permutations of the same fetched results (the collected
tables being rectangular with unique dates and pairwise disjoint columns, as
the per-series tables are), the merged frame and hence the CSV text written
to the output file are identical, independent of fetch completion order. -/
theorem pipeline_completion_order_independent (cfg : List (String × String))
    (results results' : List (String × Except String DFrame))
    (hperm : results.Perm results')
    (hrect : ∀ df ∈ (collect results).1, df.Rect)
    (hnd : ∀ df ∈ (collect results).1, df.dates.Nodup)
    (hdisj : ((collect results).1.map DFrame.cols).Pairwise
      (fun a b => ∀ x ∈ a, x ∉ b)) :
    runPipeline cfg results = runPipeline cfg results' ∧
    (runPipeline cfg results).map csvOfDF =
      (runPipeline cfg results').map csvOfDF := by
  have hdfs : ((collect results).1).Perm ((collect results').1) := by
    rw [collect_eq_filterMap, collect_eq_filterMap]
    exact hperm.filterMap okNonempty
  have hmain : runPipeline cfg results = runPipeline cfg results' :=
    mergePipeline_perm cfg _ _ hdfs hrect hdisj
  exact ⟨hmain, by rw [hmain]⟩

/-- C8 witness: the two completion orders of the fetches for `dfA` and `dfB`
produce the same merged frame and the same CSV bytes. -/
theorem pipeline_completion_order_independent_witness :
    runPipeline cfgAB [("A", Except.ok dfA), ("B", Except.ok dfB)] =
        runPipeline cfgAB [("B", Except.ok dfB), ("A", Except.ok dfA)] ∧
    (runPipeline cfgAB [("A", Except.ok dfA), ("B", Except.ok dfB)]).map csvOfDF =
        (runPipeline cfgAB [("B", Except.ok dfB), ("A", Except.ok dfA)]).map csvOfDF :=
  pipeline_completion_order_independent cfgAB
    [("A", Except.ok dfA), ("B", Except.ok dfB)]
    [("B", Except.ok dfB), ("A", Except.ok dfA)]
    (by decide) (by decide) (by decide) (by decide)

/-- C9: the consumer loop is total — an errored fetch is absorbed without
affecting the other results (deleting an errored entry leaves the collected
state unchanged), the run proceeds to the merge with exactly the non-empty
successful frames, and a name is marked successful precisely when its fetch
completed with a non-empty table. -/
theorem collect_isolates_failures (results : List (String × Except String DFrame)) :
    (collect results).1 = results.filterMap okNonempty ∧
    (collect results).2 = results.filterMap okNonemptyName ∧
    (∀ xs ys : List (String × Except String DFrame), ∀ n e,
      collect (xs ++ (n, Except.error e) :: ys) = collect (xs ++ ys)) ∧
    (∀ n, n ∈ (collect results).2 ↔
      ∃ df, (n, Except.ok df) ∈ results ∧ df.isEmpty = false) := by
  refine ⟨by rw [collect_eq_filterMap], by rw [collect_eq_filterMap], ?_, ?_⟩
  · intro xs ys n e
    rw [collect_eq_filterMap, collect_eq_filterMap]
    simp [List.filterMap_append, okNonempty, okNonemptyName]
  · intro n
    rw [collect_eq_filterMap]
    show n ∈ results.filterMap okNonemptyName ↔ _
    rw [List.mem_filterMap]
    constructor
    · rintro ⟨⟨n1, r2⟩, hr, hsome⟩
      cases r2 with
      | ok df =>
        by_cases he : df.isEmpty
        · simp [okNonemptyName, he] at hsome
        · simp [okNonemptyName, he] at hsome
          subst hsome
          exact ⟨df, hr, by simpa using he⟩
      | error e => simp [okNonemptyName] at hsome
    · rintro ⟨df, hmem, he⟩
      exact ⟨(n, Except.ok df), hmem, by simp [okNonemptyName, he]⟩

/-- C10: the cleanup step deletes exactly the files `<display name>.csv` of
successful series that exist in the output directory, leaves every other
file (including the intermediate files of failed or empty series) in place,
and in particular never touches the merged output file
`economic_indicators.csv`, since no configured display name produces that
path. -/
theorem cleanup_frame (successful fs : List String) (hfs : fs.Nodup) :
    (∀ f, f ∈ cleanup successful fs ↔
      f ∈ fs ∧ ∀ n ∈ successful, f ≠ seriesPath n) ∧
    ((∀ n ∈ successful, n ∈ SERIES_IDS.map Prod.snd) →
      (mergedPath ∈ cleanup successful fs ↔ mergedPath ∈ fs)) := by
  refine ⟨cleanup_mem successful fs hfs, ?_⟩
  intro hsub
  rw [cleanup_mem successful fs hfs]
  constructor
  · exact fun h => h.1
  · intro h
    exact ⟨h, fun n hn heq =>
      configured_seriesPath_ne_mergedPath n (hsub n hn) heq.symm⟩

/-- C10 witness: with `M2` successful, its intermediate file is removed and
the merged output file stays. -/
theorem cleanup_frame_witness :
    (["economic_indicators_data/M2.csv",
      "economic_indicators_data/economic_indicators.csv"] : List String).Nodup ∧
    ((∀ f, f ∈ cleanup ["M2"]
        ["economic_indicators_data/M2.csv",
         "economic_indicators_data/economic_indicators.csv"] ↔
      f ∈ (["economic_indicators_data/M2.csv",
        "economic_indicators_data/economic_indicators.csv"] : List String) ∧
        ∀ n ∈ (["M2"] : List String), f ≠ seriesPath n) ∧
    ((∀ n ∈ (["M2"] : List String), n ∈ SERIES_IDS.map Prod.snd) →
      (mergedPath ∈ cleanup ["M2"]
          ["economic_indicators_data/M2.csv",
           "economic_indicators_data/economic_indicators.csv"] ↔
        mergedPath ∈ (["economic_indicators_data/M2.csv",
          "economic_indicators_data/economic_indicators.csv"] : List String)))) :=
  ⟨by decide,
   cleanup_frame ["M2"]
     ["economic_indicators_data/M2.csv",
      "economic_indicators_data/economic_indicators.csv"] (by decide)⟩
